import Mathlib

set_option linter.unusedVariables false

/-!
# Verification of the redis-shake replication sync core

A shallow embedding of the `run` package of redis-shake (`dbSyncer`):
the command parser / filter, the sender, the receiver, the snapshot
restorer loop, the delay-sampling policy and the classic-sync handshake,
translated from the Go source, together with theorems settling the
specification claims about them.

External collaborators (the RESP codec, the command registry
`command.RedisCommands` / `command.GetMatchKeys`, `base.AcceptDB`,
`utils.KeyToSlot`) are not part of the sources modelled here; they enter
the embedding as explicit function parameters, so every theorem is
quantified over their possible behaviours (or instantiated with a
concrete behaviour in counterexamples).

Side effects that no claim observes (logging, the `metric` HTTP
counters other than the success/failure/delay bookkeeping, timestamps
inside delay nodes) are dropped from the embedding; the counters the
claims mention are carried explicitly in the state records.
-/

namespace RedisShake

/-- ASCII lower-casing of one character; sufficient for Go
`strings.EqualFold` on the ASCII command verbs compared by the parser. -/
def asciiToLower (c : Char) : Char :=
  if 'A' ≤ c ∧ c ≤ 'Z' then Char.ofNat (c.toNat + 32) else c

/-- Go `strings.EqualFold` restricted to ASCII strings: case-insensitive
equality. -/
def equalFold (s t : String) : Bool :=
  s.toList.map asciiToLower == t.toList.map asciiToLower

/-- Go `strings.HasPrefix s pfx`: does `s` start with `pfx`? -/
def goHasPrefix (s pfx : String) : Bool :=
  pfx.toList.isPrefixOf s.toList

/-- Decimal digits of a Go `strconv.Atoi` run: accumulate the value,
failing on any non-digit. -/
def parseDigitsAux : List Char → Nat → Option Nat
  | [], acc => some acc
  | c :: cs, acc =>
    if '0' ≤ c ∧ c ≤ '9' then parseDigitsAux cs (acc * 10 + (c.toNat - '0'.toNat))
    else none

/-- Go `strconv.Atoi`: optional sign, at least one digit, all digits,
value within the 64-bit `int` range; `none` models a non-nil error. -/
def parseAtoi (s : String) : Option Int :=
  let cs := s.toList
  let signed : Bool × List Char :=
    match cs with
    | '+' :: rest => (false, rest)
    | '-' :: rest => (true, rest)
    | _ => (false, cs)
  match signed.2 with
  | [] => none
  | _ =>
    match parseDigitsAux signed.2 0 with
    | none => none
    | some v =>
      let val : Int := if signed.1 then -(v : Int) else (v : Int)
      if val < -(2 ^ 63 : Int) ∨ (2 ^ 63 : Int) ≤ val then none else some val

/-- Go `strconv.Atoi` with the error discarded, as in the slot-filter
loop (`slotInt, _ := strconv.Atoi(slot)`): an unparseable string reads
as `0`. -/
def atoiOrZero (s : String) : Int :=
  (parseAtoi s).getD 0

/-- Go conversion `uint32(n)` of an `int`. -/
def uint32ofInt (n : Int) : Nat :=
  (n % (2 ^ 32 : Int)).toNat

/-- Go conversion `int32(n)` of an `int`. -/
def int32ofInt (n : Int) : Int :=
  (n + 2 ^ 31) % 2 ^ 32 - 2 ^ 31

/-- The configuration options (`conf.Options`) the sync core reads. -/
structure Config where
  targetDB : Int
  filterKey : List String
  filterSlot : List String
  senderCount : Nat
  senderSize : Nat
  senderDelayChannelSize : Nat
  metric : Bool
  deriving DecidableEq

/-- One decoded command: verb plus argument byte-slices (`cmdDetail`). -/
structure CmdDetail where
  cmd : String
  args : List String
  deriving DecidableEq

/-- The parser goroutine's mutable locals in `syncCommand`:
`lastdb`, the sticky `bypass` flag, and the `nbypass` counter. -/
structure ParserState where
  lastdb : Int
  bypass : Bool
  nbypass : Nat
  deriving DecidableEq

/-- Outcome of one iteration of the parser loop: enqueue a command into
`sendBuf`, skip it (a `continue` that counted it in `nbypass`), or
panic. -/
inductive ParseStepResult where
  | emit (st : ParserState) (c : CmdDetail)
  | skip (st : ParserState)
  | fatal
  deriving DecidableEq

/-- The key-filter and emission tail of the parser loop body
(everything after the select/opinfo block): compute
`(new_argv, is_filter)` from the command registry `kc`/`mk`, drop on
bypass or filter mismatch, coalesce `SELECT` under a `targetDB`
override, else enqueue. `kc v` models `command.RedisCommands[v]`
being present, and `mk v argv fk` models `command.GetMatchKeys`. -/
def filterPhase (cfg : Config) (kc : String → Bool)
    (mk : String → List String → List String → List String × Bool)
    (st : ParserState) (scmd : String) (argv : List String)
    (isselect : Bool) : ParseStepResult :=
  let fr :=
    if cfg.filterKey ≠ [] then
      if kc scmd = true ∧ 0 < argv.length then mk scmd argv cfg.filterKey
      else (argv, true)
    else (argv, true)
  if st.bypass = true ∨ fr.2 = false then
    .skip { st with nbypass := st.nbypass + 1 }
  else if isselect = true ∧ cfg.targetDB ≠ -1 then
    if cfg.targetDB ≠ st.lastdb then
      .emit { st with lastdb := int32ofInt cfg.targetDB }
        ⟨"SELECT", [toString (int32ofInt cfg.targetDB)]⟩
    else
      .skip { st with nbypass := st.nbypass + 1 }
  else
    .emit st ⟨scmd, fr.1⟩

/-- One iteration of the parser loop in `syncCommand` on a decoded
command `(scmd, argv)`. `acc` models `base.AcceptDB`. The select /
opinfo block is skipped when the verb is exactly `"ping"`; a `select`
with a bad argument count or an unparseable db number panics; a
`select` recomputes the sticky `bypass` flag from `acc` applied to the
`uint32` conversion of the parsed db. -/
def parseStep (cfg : Config) (acc : Nat → Bool) (kc : String → Bool)
    (mk : String → List String → List String → List String × Bool)
    (st : ParserState) (scmd : String) (argv : List String) : ParseStepResult :=
  if scmd = "ping" then
    filterPhase cfg kc mk st scmd argv false
  else if equalFold scmd "select" = true then
    if argv.length = 1 then
      match parseAtoi (argv.headD "") with
      | none => .fatal
      | some n =>
        let st' := { st with bypass := !acc (uint32ofInt n) }
        if st'.bypass = true then .skip { st' with nbypass := st'.nbypass + 1 }
        else filterPhase cfg kc mk st' scmd argv true
    else .fatal
  else if equalFold scmd "opinfo" = true then
    .skip { st with nbypass := st.nbypass + 1 }
  else if st.bypass = true then
    .skip { st with nbypass := st.nbypass + 1 }
  else
    filterPhase cfg kc mk st scmd argv false

/-- Result of running the parser over a command sequence: final state,
commands enqueued into `sendBuf` (in order), and whether it panicked. -/
structure ParseRun where
  final : ParserState
  emitted : List CmdDetail
  fatal : Bool
  deriving DecidableEq

/-- Run the parser loop over a list of decoded commands. -/
def runParser (cfg : Config) (acc : Nat → Bool) (kc : String → Bool)
    (mk : String → List String → List String → List String × Bool) :
    ParserState → List (String × List String) → ParseRun
  | st, [] => ⟨st, [], false⟩
  | st, (scmd, argv) :: rest =>
    match parseStep cfg acc kc mk st scmd argv with
    | .fatal => ⟨st, [], true⟩
    | .skip st' => runParser cfg acc kc mk st' rest
    | .emit st' c =>
      let r := runParser cfg acc kc mk st' rest
      ⟨r.final, c :: r.emitted, r.fatal⟩

/-- A configuration with no filters, no db override and default sender
tuning, used for concrete runs. -/
def cfgNoFilter : Config :=
  ⟨-1, [], [], 5000, 65536, 8192, true⟩

/-- The db-override configuration of the coalescing scenario:
`targetDB = 7`, no filters. -/
def cfg7 : Config :=
  ⟨7, [], [], 5000, 65536, 8192, true⟩

/-- An `AcceptDB` accepting every db (no db filter configured). -/
def accAll : Nat → Bool := fun _ => true

/-- An `AcceptDB` accepting only db 0 (a configured db filter). -/
def accOnly0 : Nat → Bool := fun n => n == 0

/-- A command registry containing no verbs. -/
def kcNone : String → Bool := fun _ => false

/-- A `GetMatchKeys` that keeps every command (vacuous, since it is only
reached for registered verbs). -/
def mkId : String → List String → List String → List String × Bool :=
  fun _ a _ => (a, true)

/-- The parser's initial state (`lastdb = 0`, not bypassed). -/
def pst0 : ParserState := ⟨0, false, 0⟩

/-! ## Snapshot restorer (`syncRDBFile` worker loop) -/

/-- One record produced by the RDB parser (`rdb.BinEntry` as the
restorer consumes it): db index (`uint32`), key bytes, and the opaque
value payload. -/
structure Entry where
  db : Nat
  key : String
  val : String
  deriving DecidableEq

/-- An operation a restorer issues on its target connection. -/
inductive TargetOp where
  | selectOp (n : Nat)
  | restoreOp (e : Entry)
  deriving DecidableEq

/-- A restorer worker's locals and the syncer counters it touches:
`lastdb` (`uint32`), and the `ignore` / `nentry` counters. -/
structure RdbState where
  lastdb : Nat
  ignoreCnt : Nat
  nentry : Nat
  deriving DecidableEq

/-- One iteration of the restorer worker loop in `syncRDBFile` on a
record `e`: non-accepted dbs count in `ignore`; accepted records count
in `nentry`, then select the destination db (override takes priority),
then restore the record if it passes the key-filter, else the
slot-filter, else unconditionally. `acc` models `base.AcceptDB`,
`kts` models `utils.KeyToSlot`. Returns the new state and the target
operations issued. -/
def restoreStep (cfg : Config) (acc : Nat → Bool) (kts : String → Nat)
    (st : RdbState) (e : Entry) : RdbState × List TargetOp :=
  if acc e.db = false then
    ({ st with ignoreCnt := st.ignoreCnt + 1 }, [])
  else
    let st1 : RdbState := { st with nentry := st.nentry + 1 }
    let sel : RdbState × List TargetOp :=
      if cfg.targetDB ≠ -1 then
        if cfg.targetDB ≠ (st1.lastdb : Int) then
          ({ st1 with lastdb := uint32ofInt cfg.targetDB },
            [.selectOp (uint32ofInt cfg.targetDB)])
        else (st1, [])
      else
        if e.db ≠ st1.lastdb then
          ({ st1 with lastdb := e.db }, [.selectOp e.db])
        else (st1, [])
    let restores : List TargetOp :=
      if cfg.filterKey ≠ [] then
        if cfg.filterKey.any (fun p => goHasPrefix e.key p) then [.restoreOp e] else []
      else if cfg.filterSlot ≠ [] then
        if cfg.filterSlot.any (fun s => ((kts e.key : Int) == atoiOrZero s)) then
          [.restoreOp e]
        else []
      else [.restoreOp e]
    (sel.1, sel.2 ++ restores)

/-- The filter decision of the restorer loop in isolation: does record
`e` pass the configured filter (key-filter first, else slot-filter,
else pass-through)? -/
def entryMatches (cfg : Config) (kts : String → Nat) (e : Entry) : Bool :=
  if cfg.filterKey ≠ [] then
    cfg.filterKey.any (fun p => goHasPrefix e.key p)
  else if cfg.filterSlot ≠ [] then
    cfg.filterSlot.any (fun s => ((kts e.key : Int) == atoiOrZero s))
  else true

/-- Run a restorer worker over a list of records. -/
def runRestore (cfg : Config) (acc : Nat → Bool) (kts : String → Nat) :
    RdbState → List Entry → RdbState × List TargetOp
  | st, [] => (st, [])
  | st, e :: es =>
    let r := restoreStep cfg acc kts st e
    let rest := runRestore cfg acc kts r.1 es
    (rest.1, r.2 ++ rest.2)

/-- A slot function assigning every key slot 0 (concrete `KeyToSlot`
stand-in for runs that do not exercise the slot filter). -/
def kts0 : String → Nat := fun _ => 0

/-- A restorer worker's initial state (`lastdb = 0`, counters 0). -/
def rst0 : RdbState := ⟨0, 0, 0⟩

/-! ## Sender (`syncCommand` sender goroutine) -/

/-- The sender goroutine's locals and the syncer counters it touches:
`noFlushCount`, `cachedSize` (both reset on flush), the `forward`
counter and the monotonic `sendId`. -/
structure SenderState where
  noFlushCount : Nat
  cachedSize : Nat
  forward : Nat
  sendId : Int
  deriving DecidableEq

/-- Outcome of one sender iteration: continue (recording whether a
flush happened) or panic. -/
inductive SenderOutcome where
  | cont (st : SenderState) (flushed : Bool)
  | fatal
  deriving DecidableEq

/-- State carried by a non-fatal sender outcome (`d` for the fatal
case). -/
def SenderOutcome.stOr (d : SenderState) : SenderOutcome → SenderState
  | .cont st _ => st
  | .fatal => d

/-- Whether a sender outcome flushed. -/
def SenderOutcome.flushed : SenderOutcome → Bool
  | .cont _ f => f
  | .fatal => false

/-- The byte length the sender computes for a command (`length`:
verb length plus the argument lengths); it feeds only the
network-flow metric. -/
def cmdLength (item : CmdDetail) : Nat :=
  item.cmd.length + (item.args.map String.length).sum

/-- One iteration of the sender goroutine on a command taken from
`sendBuf`: `Send` (a failure panics), increment `noFlushCount`,
`forward` and `sendId`, then flush when `noFlushCount > senderCount`,
`cachedSize > senderSize`, or the channel is empty; a flush resets
`noFlushCount` and `cachedSize`, and a flush network error panics.
`cachedSize` is never increased anywhere in the loop. -/
def senderStep (cfg : Config) (st : SenderState) (item : CmdDetail)
    (bufEmpty sendErr flushNetErr : Bool) : SenderOutcome :=
  if sendErr = true then .fatal
  else
    let st1 : SenderState :=
      { st with noFlushCount := st.noFlushCount + 1,
                forward := st.forward + 1,
                sendId := st.sendId + 1 }
    if st1.noFlushCount > cfg.senderCount ∨ st1.cachedSize > cfg.senderSize ∨
        bufEmpty = true then
      if flushNetErr = true then .fatal
      else .cont { st1 with noFlushCount := 0, cachedSize := 0 } true
    else .cont st1 false

/-! ## Delay sampling (`addDelayChan`) -/

/-- The sampling predicate of `addDelayChan`: `free` is the free space
of the delay channel (`cap - len`), `id` the current `sendId`. -/
def delaySampleCond (free : Nat) (id : Int) : Bool :=
  4096 ≤ free || (1024 ≤ free && id % 10 == 0) ||
    (128 ≤ free && id % 100 == 0) || id % 1000 == 0

/-- `addDelayChan`: sample by the free-space policy, then enqueue
non-blockingly (a full channel drops the node). The channel contents
are the node `sendId`s (timestamps are not modelled); `capC` is the
channel capacity (`conf.Options.SenderDelayChannelSize`). -/
def addDelayChan (capC : Nat) (q : List Int) (id : Int) : List Int :=
  if delaySampleCond (capC - q.length) id then
    if q.length < capC then q ++ [id] else q
  else q

/-! ## Receiver (`syncCommand` receiver goroutine) -/

/-- The receiver goroutine's locals and the counters it touches:
the monotonic `recvId`, the metric success / failure counters, the
cached delay node (its `sendId`), and the delay channel contents. -/
structure RecvState where
  recvId : Int
  succCount : Nat
  failCount : Nat
  node : Option Int
  delayQ : List Int
  deriving DecidableEq

/-- Outcome of one receiver iteration: continue or panic (carrying the
counter state at the panic). -/
inductive RecvOutcome where
  | cont (st : RecvState)
  | fatal (st : RecvState)
  deriving DecidableEq

/-- The state carried by a receiver outcome. -/
def RecvOutcome.st : RecvOutcome → RecvState
  | .cont s => s
  | .fatal s => s

/-- One iteration of the receiver goroutine in `syncCommand`:
`Receive` a reply (`isErr` models a non-nil error), increment `recvId`;
when `metric` is off, nothing else happens; otherwise a success
increments the success counter and a failure increments the failure
counter and panics (for net and non-net errors alike). On success the
cached delay node (refilled non-blockingly from the channel) is
compared against `recvId`: equal records the delay, smaller panics,
larger is retained. -/
def receiveStep (cfg : Config) (st : RecvState) (isErr : Bool) : RecvOutcome :=
  let st1 : RecvState := { st with recvId := st.recvId + 1 }
  let id := st1.recvId
  if cfg.metric = false then .cont st1
  else if isErr = true then .fatal { st1 with failCount := st1.failCount + 1 }
  else
    let st2 : RecvState := { st1 with succCount := st1.succCount + 1 }
    let nodeq : Option Int × List Int :=
      match st2.node with
      | some n => (some n, st2.delayQ)
      | none =>
        match st2.delayQ with
        | [] => (none, [])
        | n :: rest => (some n, rest)
    let st3 : RecvState := { st2 with delayQ := nodeq.2 }
    match nodeq.1 with
    | none => .cont { st3 with node := none }
    | some n =>
      if n = id then .cont { st3 with node := none }
      else if n < id then .fatal { st3 with node := some n }
      else .cont { st3 with node := some n }

/-! ## Classic-sync handshake (`sendSyncCmd`) -/

/-- The size-waiting loop of `sendSyncCmd`: given the sequence of
snapshot-size announcements arriving on the `wait` channel, the
handshake returns the first non-zero size; announcements of `0` only
log a keepalive and the loop continues. `none` models the loop still
blocking (it never returns while only zeros arrive). -/
def sendSyncCmdResult : List Int → Option Int
  | [] => none
  | n :: rest => if n = 0 then sendSyncCmdResult rest else some n

/-! ## Syncer lifetime trace (`sync`) -/

/-- Observable events of one syncer lifetime, in the order `sync`
produces them: target operations of the snapshot phase, the one-shot
`close(ds.waitFull)` signal, and commands enqueued into `sendBuf` by
the command phase. -/
inductive SyncEvent where
  | selectDB (n : Nat)
  | restoreEntry (e : Entry)
  | snapshotDone
  | enqueue (c : CmdDetail)
  deriving DecidableEq

/-- Snapshot-phase target operations as trace events. -/
def opToEvent : TargetOp → SyncEvent
  | .selectOp n => .selectDB n
  | .restoreOp e => .restoreEntry e

/-- Is a trace event a command-forward enqueue? -/
def SyncEvent.isEnq : SyncEvent → Bool
  | .enqueue _ => true
  | _ => false

/-- The event trace of one `sync` run: `syncRDBFile` is called first
and returns only after its workers drained the record channel, then
`close(ds.waitFull)` fires, then `syncCommand` starts and its parser
enqueues commands into `sendBuf` (which only then exists). -/
def syncTrace (cfg : Config) (acc : Nat → Bool) (kc : String → Bool)
    (mk : String → List String → List String → List String × Bool)
    (kts : String → Nat) (entries : List Entry)
    (cmds : List (String × List String)) : List SyncEvent :=
  ((runRestore cfg acc kts rst0 entries).2.map opToEvent) ++
    SyncEvent.snapshotDone ::
      ((runParser cfg acc kc mk pst0 cmds).emitted.map SyncEvent.enqueue)

/-- A configuration with only a key-prefix filter (`filter.key =
["user:"]`), no db override. -/
def cfgKeyUser : Config :=
  ⟨-1, ["user:"], [], 5000, 65536, 8192, true⟩

/-- A configuration with only a slot filter (`filter.slot = ["0"]`). -/
def cfgSlot0 : Config :=
  ⟨-1, [], ["0"], 5000, 65536, 8192, true⟩

/-- A configuration with `metric = false`. -/
def cfgNoMetric : Config :=
  ⟨-1, [], [], 5000, 65536, 8192, false⟩

/-! ## C1 — ping handling in the command parser -/

/-- C1 counterexample: with only db 0 accepted, the stream
`SELECT 1; PING` leaves `ping` un-emitted and counts it in `nbypass`
(which reaches 2: one for the select, one for the ping), because the
sticky `bypass` flag is also consulted by the filter-phase drop check.
The claim that `ping` is passed through unconditionally and not counted
in `nbypass` is therefore false. -/
theorem ping_bypassed_counterexample :
    (runParser cfgNoFilter accOnly0 kcNone mkId pst0
      [("select", ["1"]), ("ping", [])]).emitted = [] ∧
    (runParser cfgNoFilter accOnly0 kcNone mkId pst0
      [("select", ["1"]), ("ping", [])]).final.nbypass = 2 := by
  decide

/-- C1 (amended): a decoded `ping` skips the select/opinfo handling and
the key filter leaves it untouched (it is not a registered key-bearing
verb), but it is emitted if and only if the parser is not in bypass
state; when bypassed it is dropped and counted in `nbypass`. -/
theorem ping_emitted_iff_not_bypassed (cfg : Config) (acc : Nat → Bool)
    (kc : String → Bool)
    (mk : String → List String → List String → List String × Bool)
    (st : ParserState) (argv : List String) (hkc : kc "ping" = false) :
    (st.bypass = false →
      parseStep cfg acc kc mk st "ping" argv = .emit st ⟨"ping", argv⟩) ∧
    (st.bypass = true →
      parseStep cfg acc kc mk st "ping" argv =
        .skip { st with nbypass := st.nbypass + 1 }) := by
  constructor <;> intro hb <;> simp [parseStep, filterPhase, hkc, hb]

/-- C1 witness: the amended theorem evaluated at concrete inputs. -/
theorem ping_emitted_iff_not_bypassed_witness :
    parseStep cfgNoFilter accAll kcNone mkId ⟨0, false, 0⟩ "ping" [] =
      .emit ⟨0, false, 0⟩ ⟨"ping", []⟩ ∧
    parseStep cfgNoFilter accAll kcNone mkId ⟨0, true, 0⟩ "ping" [] =
      .skip ⟨0, true, 1⟩ :=
  ⟨(ping_emitted_iff_not_bypassed cfgNoFilter accAll kcNone mkId
      ⟨0, false, 0⟩ [] rfl).1 rfl,
   (ping_emitted_iff_not_bypassed cfgNoFilter accAll kcNone mkId
      ⟨0, true, 0⟩ [] rfl).2 rfl⟩

/-! ## C10 — malformed select is fatal -/

/-- C10: a decoded command whose verb is `select` (case-insensitively)
with an argument count other than 1, or whose single argument does not
parse as a decimal integer, makes the parser panic rather than forward,
bypass or skip the command. -/
theorem select_malformed_fatal (cfg : Config) (acc : Nat → Bool)
    (kc : String → Bool)
    (mk : String → List String → List String → List String × Bool)
    (st : ParserState) (scmd : String) (argv : List String)
    (hsel : equalFold scmd "select" = true)
    (hbad : argv.length ≠ 1 ∨ parseAtoi (argv.headD "") = none) :
    parseStep cfg acc kc mk st scmd argv = .fatal := by
  have hping : scmd ≠ "ping" := by
    intro h
    subst h
    exact absurd hsel (by decide)
  unfold parseStep
  rw [if_neg hping, if_pos hsel]
  rcases hbad with h | h
  · rw [if_neg h]
  · by_cases hl : argv.length = 1
    · rw [if_pos hl, h]
    · rw [if_neg hl]

/-- C10 witness: `select x` (unparseable db argument) is fatal. -/
theorem select_malformed_fatal_witness :
    parseStep cfgNoFilter accAll kcNone mkId pst0 "select" ["x"] = .fatal :=
  select_malformed_fatal cfgNoFilter accAll kcNone mkId pst0 "select" ["x"]
    (by decide) (Or.inr (by decide))

/-! ## C6 — select coalescing under a targetDB override -/

/-- C6: with a `targetDB` override configured, a select addressed to an
accepted db emits `SELECT override` exactly when the override differs
from the tracked `lastdb` (updating it), and is otherwise suppressed
with `nbypass` incremented; consequently the scenario
`SELECT 0; SET a 1; SELECT 3; SET b 2` under `targetDB = 7` emits
exactly one `SELECT 7` followed by the two sets. -/
theorem select_coalescing (cfg : Config) (acc : Nat → Bool)
    (kc : String → Bool)
    (mk : String → List String → List String → List String × Bool)
    (st : ParserState) (scmd s : String) (n : Int)
    (hT : cfg.targetDB ≠ -1) (hkc : kc scmd = false)
    (hsel : equalFold scmd "select" = true)
    (hn : parseAtoi s = some n) (hacc : acc (uint32ofInt n) = true) :
    (cfg.targetDB ≠ st.lastdb →
      parseStep cfg acc kc mk st scmd [s] =
        .emit { st with bypass := false, lastdb := int32ofInt cfg.targetDB }
          ⟨"SELECT", [toString (int32ofInt cfg.targetDB)]⟩) ∧
    (cfg.targetDB = st.lastdb →
      parseStep cfg acc kc mk st scmd [s] =
        .skip { st with bypass := false, nbypass := st.nbypass + 1 }) ∧
    (runParser cfg7 accAll kcNone mkId pst0
      [("select", ["0"]), ("set", ["a", "1"]), ("select", ["3"]),
        ("set", ["b", "2"])]).emitted =
      [⟨"SELECT", ["7"]⟩, ⟨"set", ["a", "1"]⟩, ⟨"set", ["b", "2"]⟩] := by
  have hping : scmd ≠ "ping" := by
    intro h
    subst h
    exact absurd hsel (by decide)
  refine ⟨?_, ?_, by decide⟩
  · intro hdb
    simp [parseStep, filterPhase, hping, hsel, hn, hacc, hkc, hT, hdb]
  · intro hdb
    have hT' : ¬ st.lastdb = -1 := fun h => hT (hdb.trans h)
    simp [parseStep, filterPhase, hping, hsel, hn, hacc, hkc, hT', hdb]

/-- C6 witness: under `targetDB = 7`, `select 0` from `lastdb = 0`
emits `SELECT 7`, and `select 3` from `lastdb = 7` is suppressed with
`nbypass` incremented. -/
theorem select_coalescing_witness :
    parseStep cfg7 accAll kcNone mkId pst0 "select" ["0"] =
      .emit ⟨7, false, 0⟩ ⟨"SELECT", ["7"]⟩ ∧
    parseStep cfg7 accAll kcNone mkId ⟨7, false, 3⟩ "select" ["3"] =
      .skip ⟨7, false, 4⟩ := by
  constructor
  · have h := (select_coalescing cfg7 accAll kcNone mkId pst0 "select" "0" 0
      (by decide) rfl (by decide) (by decide) rfl).1 (by decide)
    simpa using h
  · have h := (select_coalescing cfg7 accAll kcNone mkId ⟨7, false, 3⟩ "select"
      "3" 3 (by decide) rfl (by decide) (by decide) rfl).2.1 rfl
    simpa using h

/-! ## C2 — receiver reply accounting -/

/-- C2 counterexample: with `metric = false`, a failed `Receive` is not
fatal and leaves the failure counter untouched (only `recvId`
advances), refuting the claim that every failure increments the
failure counter and terminates the syncer regardless of any
configuration setting. -/
theorem receiver_not_fatal_without_metric_counterexample :
    receiveStep cfgNoMetric ⟨0, 0, 0, none, []⟩ true =
      .cont ⟨1, 0, 0, none, []⟩ := by
  decide

/-- C2 (amended): when `metric` is enabled, every successful reply
increments the success counter and every failed `Receive` increments
the failure counter and is fatal; when `metric` is disabled, a reply
(successful or not) only advances `recvId`. -/
theorem receiver_counters (cfg : Config) (st : RecvState) (b : Bool) :
    (cfg.metric = true →
      receiveStep cfg st true =
        .fatal { st with recvId := st.recvId + 1,
                         failCount := st.failCount + 1 } ∧
      (receiveStep cfg st false).st.succCount = st.succCount + 1 ∧
      (receiveStep cfg st false).st.failCount = st.failCount) ∧
    (cfg.metric = false →
      receiveStep cfg st b = .cont { st with recvId := st.recvId + 1 }) := by
  constructor
  · intro hm
    refine ⟨by simp [receiveStep, hm], ?_, ?_⟩ <;>
      · simp only [receiveStep, hm]
        rcases st.node with _ | n
        · rcases st.delayQ with _ | ⟨m, rest⟩
          · simp [RecvOutcome.st]
          · simp only []
            split_ifs <;> simp_all [RecvOutcome.st]
        · simp only []
          split_ifs <;> simp_all [RecvOutcome.st]
  · intro hm
    simp [receiveStep, hm]

/-- C2 witness: the amended theorem evaluated at concrete inputs
(metric on: failure is fatal with the counter bumped; metric off: a
failure only advances `recvId`). -/
theorem receiver_counters_witness :
    receiveStep cfgNoFilter ⟨0, 0, 0, none, []⟩ true =
      .fatal ⟨1, 0, 1, none, []⟩ ∧
    receiveStep cfgNoMetric ⟨5, 2, 0, none, []⟩ false =
      .cont ⟨6, 2, 0, none, []⟩ := by
  constructor
  · have h := ((receiver_counters cfgNoFilter ⟨0, 0, 0, none, []⟩ true).1 rfl).1
    simpa using h
  · have h := (receiver_counters cfgNoMetric ⟨5, 2, 0, none, []⟩ false).2 rfl
    simpa using h

/-! ## C7 — sender accounting and the flush predicate -/

/-- C7 counterexample: processing one command of byte length 5 leaves
`cachedSize` at 0 (the sender never accumulates command size into it),
refuting the claim that `cachedSize` grows by the command's byte size
so that `cachedSize > senderSize` can become true. -/
theorem cached_size_not_accumulated_counterexample :
    senderStep cfgNoFilter ⟨0, 0, 0, 0⟩ ⟨"set", ["a", "1"]⟩ false false false =
      .cont ⟨1, 0, 1, 1⟩ false ∧
    cmdLength ⟨"set", ["a", "1"]⟩ = 5 := by
  decide

/-- C7 (amended): for each command the sender increments `forward`,
`sendId` and `noFlushCount`, but never accumulates `cachedSize`: from
`cachedSize = 0` it stays 0, so the flush predicate
`cachedSize > senderSize` never fires and a flush happens exactly when
`noFlushCount` exceeds `senderCount` or the channel is empty. -/
theorem sender_counters (cfg : Config) (st : SenderState) (item : CmdDetail)
    (bufEmpty : Bool) (h : st.cachedSize = 0) :
    (senderStep cfg st item bufEmpty false false).stOr st =
      (if st.noFlushCount + 1 > cfg.senderCount ∨ bufEmpty = true then
        ⟨0, 0, st.forward + 1, st.sendId + 1⟩
      else ⟨st.noFlushCount + 1, 0, st.forward + 1, st.sendId + 1⟩) ∧
    ((senderStep cfg st item bufEmpty false false).flushed = true ↔
      (st.noFlushCount + 1 > cfg.senderCount ∨ bufEmpty = true)) ∧
    senderStep cfg st item bufEmpty false false ≠ .fatal := by
  simp only [senderStep, h]
  have hsz : ¬ (0 > cfg.senderSize) := Nat.not_lt_zero _
  split_ifs with hc <;>
    simp_all [SenderOutcome.stOr, SenderOutcome.flushed]

/-- C7 witness: the amended theorem at a concrete input with the
channel empty: the command is flushed, counters advance, `cachedSize`
stays 0. -/
theorem sender_counters_witness :
    (senderStep cfgNoFilter ⟨0, 0, 0, 0⟩ ⟨"set", ["a", "1"]⟩ true false
        false).stOr ⟨0, 0, 0, 0⟩ = ⟨0, 0, 1, 1⟩ ∧
    (senderStep cfgNoFilter ⟨0, 0, 0, 0⟩ ⟨"set", ["a", "1"]⟩ true false
        false).flushed = true := by
  constructor
  · have h := (sender_counters cfgNoFilter ⟨0, 0, 0, 0⟩ ⟨"set", ["a", "1"]⟩
      true rfl).1
    simpa using h
  · exact (sender_counters cfgNoFilter ⟨0, 0, 0, 0⟩ ⟨"set", ["a", "1"]⟩
      true rfl).2.1.mpr (Or.inr rfl)

/-! ## C8 — delay sampling policy -/

/-- C8: with `free` the free space of the delay channel, a delay node
is enqueued exactly when the sampling condition holds (`free ≥ 4096`,
or `free ≥ 1024` and `sendId % 10 = 0`, or `free ≥ 128` and
`sendId % 100 = 0`, or `sendId % 1000 = 0`) and the channel has room;
the enqueue never blocks: when the condition holds but the channel is
full the node is dropped and the channel is left unchanged. -/
theorem delay_sampling_policy (capC : Nat) (q : List Int) (id : Int) :
    (addDelayChan capC q id = q ++ [id] ↔
      ((4096 ≤ capC - q.length ∨
        (1024 ≤ capC - q.length ∧ id % 10 = 0) ∨
        (128 ≤ capC - q.length ∧ id % 100 = 0) ∨ id % 1000 = 0) ∧
        q.length < capC)) ∧
    (addDelayChan capC q id = q ++ [id] ∨ addDelayChan capC q id = q) := by
  have hne : ¬ (q = q ++ [id]) := by
    intro h
    have := congrArg List.length h
    simp at this
  have hcond : delaySampleCond (capC - q.length) id = true ↔
      (4096 ≤ capC - q.length ∨
        (1024 ≤ capC - q.length ∧ id % 10 = 0) ∨
        (128 ≤ capC - q.length ∧ id % 100 = 0) ∨ id % 1000 = 0) := by
    simp [delaySampleCond, Bool.or_eq_true, Bool.and_eq_true,
      decide_eq_true_eq, beq_iff_eq, or_assoc]
  constructor
  · unfold addDelayChan
    split_ifs with h1 h2
    · exact iff_of_true rfl ⟨hcond.mp h1, h2⟩
    · exact iff_of_false hne (fun hc => h2 hc.2)
    · refine iff_of_false hne (fun hc => ?_)
      rw [hcond] at h1
      exact h1 hc.1
  · unfold addDelayChan
    split_ifs <;> simp

/-! ## C4 — restorer counters -/

/-- C4 counterexample: with the key-prefix filter `["user:"]`
configured and every db accepted, the record `{db 0, key "order:1"}`
matches no configured prefix, yet the restorer leaves `ignore` at 0,
increments `nentry`, and issues no operation at all — refuting the
claim that every non-matching record increments the ignore counter
(and that every `nentry` increment corresponds to a restore). -/
theorem filtered_record_not_ignored_counterexample :
    restoreStep cfgKeyUser accAll kts0 rst0 ⟨0, "order:1", "y"⟩ =
      (⟨0, 0, 1⟩, []) ∧
    goHasPrefix "order:1" "user:" = false := by
  decide

/-- C4 (amended): in the snapshot restorer, only records whose db is
not accepted increment the ignore counter (and produce no target
operation); every record with an accepted db increments `nentry`
regardless of the key/slot filters, leaves `ignore` unchanged, and is
restored on the target if and only if it passes the configured filter
(non-matching accepted records are silently skipped). -/
theorem restore_counters (cfg : Config) (acc : Nat → Bool)
    (kts : String → Nat) (st : RdbState) (e : Entry) :
    (acc e.db = false →
      restoreStep cfg acc kts st e =
        ({ st with ignoreCnt := st.ignoreCnt + 1 }, [])) ∧
    (acc e.db = true →
      (restoreStep cfg acc kts st e).1.nentry = st.nentry + 1 ∧
      (restoreStep cfg acc kts st e).1.ignoreCnt = st.ignoreCnt ∧
      (TargetOp.restoreOp e ∈ (restoreStep cfg acc kts st e).2 ↔
        entryMatches cfg kts e = true)) := by
  constructor
  · intro h
    simp [restoreStep, h]
  · intro h
    unfold restoreStep entryMatches
    simp only [h]
    split_ifs <;> simp_all

/-- C4 witness: the amended theorem at concrete records — a
non-accepted-db record goes to `ignore`; an accepted, prefix-matching
record counts in `nentry` and is restored exactly because it
matches. -/
theorem restore_counters_witness :
    restoreStep cfgKeyUser accOnly0 kts0 rst0 ⟨3, "user:1", "x"⟩ =
      ({ rst0 with ignoreCnt := rst0.ignoreCnt + 1 }, []) ∧
    ((restoreStep cfgKeyUser accAll kts0 rst0 ⟨0, "user:1", "x"⟩).1.nentry =
        rst0.nentry + 1 ∧
      (restoreStep cfgKeyUser accAll kts0 rst0 ⟨0, "user:1", "x"⟩).1.ignoreCnt =
        rst0.ignoreCnt ∧
      (TargetOp.restoreOp ⟨0, "user:1", "x"⟩ ∈
          (restoreStep cfgKeyUser accAll kts0 rst0 ⟨0, "user:1", "x"⟩).2 ↔
        entryMatches cfgKeyUser kts0 ⟨0, "user:1", "x"⟩ = true)) :=
  ⟨(restore_counters cfgKeyUser accOnly0 kts0 rst0 ⟨3, "user:1", "x"⟩).1 rfl,
   (restore_counters cfgKeyUser accAll kts0 rst0 ⟨0, "user:1", "x"⟩).2 rfl⟩

/-! ## C5 — filter soundness -/

/-- C5 counterexample: with the key-prefix filter `["user:"]`
configured, only db 0 accepted and the record `{db 5, key "user:1"}`,
the key does start with the configured prefix and yet the record is
not restored (its db is filtered out first) — refuting the claimed
equivalence "restored iff some prefix matches the key". -/
theorem prefix_match_not_restored_counterexample :
    restoreStep cfgKeyUser accOnly0 kts0 rst0 ⟨5, "user:1", "x"⟩ =
      (⟨0, 1, 0⟩, []) ∧
    goHasPrefix "user:1" "user:" = true := by
  decide

/-- C5 (amended): when a key-prefix filter is configured, a record is
restored if and only if its db is accepted and some configured prefix
is a prefix of its key; when no key-prefix filter but a slot filter is
configured, a record is restored if and only if its db is accepted and
its computed slot equals one of the configured slots. -/
theorem filter_soundness (cfg : Config) (acc : Nat → Bool)
    (kts : String → Nat) (st : RdbState) (e : Entry) :
    (cfg.filterKey ≠ [] →
      (TargetOp.restoreOp e ∈ (restoreStep cfg acc kts st e).2 ↔
        acc e.db = true ∧
          cfg.filterKey.any (fun p => goHasPrefix e.key p) = true)) ∧
    (cfg.filterKey = [] → cfg.filterSlot ≠ [] →
      (TargetOp.restoreOp e ∈ (restoreStep cfg acc kts st e).2 ↔
        acc e.db = true ∧
          cfg.filterSlot.any
            (fun s => ((kts e.key : Int) == atoiOrZero s)) = true)) := by
  constructor
  · intro hk
    unfold restoreStep
    split_ifs <;> simp_all <;> split_ifs <;> simp_all
  · intro hk hs
    unfold restoreStep
    split_ifs <;> simp_all <;> split_ifs <;> simp_all

/-- C5 witness: the amended equivalences at concrete inputs — a
matching key with accepted db is restored under the key filter, and a
slot-0 key with accepted db is restored under the slot filter. -/
theorem filter_soundness_witness :
    (TargetOp.restoreOp ⟨0, "user:2", "x"⟩ ∈
        (restoreStep cfgKeyUser accAll kts0 rst0 ⟨0, "user:2", "x"⟩).2 ↔
      accAll 0 = true ∧
        cfgKeyUser.filterKey.any
          (fun p => goHasPrefix "user:2" p) = true) ∧
    (TargetOp.restoreOp ⟨0, "k", "v"⟩ ∈
        (restoreStep cfgSlot0 accAll kts0 rst0 ⟨0, "k", "v"⟩).2 ↔
      accAll 0 = true ∧
        cfgSlot0.filterSlot.any
          (fun s => ((kts0 "k" : Int) == atoiOrZero s)) = true) :=
  ⟨(filter_soundness cfgKeyUser accAll kts0 rst0 ⟨0, "user:2", "x"⟩).1
      (by decide),
   (filter_soundness cfgSlot0 accAll kts0 rst0 ⟨0, "k", "v"⟩).2 rfl
      (by decide)⟩

/-! ## C3 — snapshot-done fires once, before any command enqueue -/

/-- Splitting a list around an element that occurs in neither side of
the canonical split is unique. -/
theorem append_cons_unique {α : Type} {x : α} :
    ∀ {A pre B post : List α}, A ++ x :: B = pre ++ x :: post →
      x ∉ A → x ∉ B → A = pre ∧ B = post := by
  intro A
  induction A with
  | nil =>
    intro pre B post h hA hB
    cases pre with
    | nil =>
      simp only [List.nil_append] at h
      exact ⟨rfl, List.cons_injective h⟩
    | cons p pre' =>
      simp only [List.nil_append, List.cons_append, List.cons.injEq] at h
      rcases h with ⟨hx, hB'⟩
      exact absurd (by rw [hB']; simp : x ∈ B) hB
  | cons a A' ih =>
    intro pre B post h hA hB
    cases pre with
    | nil =>
      simp only [List.cons_append, List.nil_append, List.cons.injEq] at h
      exact absurd (by rw [h.1]; exact List.mem_cons_self _ _ : x ∈ a :: A') hA
    | cons p pre' =>
      simp only [List.cons_append, List.cons.injEq] at h
      rcases h with ⟨hap, h'⟩
      have hA' : x ∉ A' := fun hx => hA (List.mem_cons_of_mem _ hx)
      obtain ⟨h1, h2⟩ := ih h' hA' hB
      exact ⟨by rw [hap, h1], h2⟩

/-- Snapshot-phase target operations never map to the snapshot-done
event. -/
theorem opToEvent_ne_done (op : TargetOp) :
    opToEvent op ≠ SyncEvent.snapshotDone := by
  cases op <;> simp [opToEvent]

/-- Snapshot-phase target operations never map to an enqueue event. -/
theorem opToEvent_not_enq (op : TargetOp) :
    (opToEvent op).isEnq = false := by
  cases op <;> simp [opToEvent, SyncEvent.isEnq]

/-- C3: in every `sync` lifetime trace the snapshot-done signal
(`close(ds.waitFull)`) occurs exactly once, and whatever prefix of the
trace precedes it contains no command enqueue: no command reaches the
send buffer while the snapshot phase is still running. -/
theorem snapshot_done_once_before_first_enqueue (cfg : Config)
    (acc : Nat → Bool) (kc : String → Bool)
    (mk : String → List String → List String → List String × Bool)
    (kts : String → Nat) (entries : List Entry)
    (cmds : List (String × List String)) :
    (syncTrace cfg acc kc mk kts entries cmds).count
        SyncEvent.snapshotDone = 1 ∧
    ∀ pre post,
      syncTrace cfg acc kc mk kts entries cmds =
        pre ++ SyncEvent.snapshotDone :: post →
      ∀ c : CmdDetail, SyncEvent.enqueue c ∉ pre := by
  have hA : SyncEvent.snapshotDone ∉
      ((runRestore cfg acc kts rst0 entries).2.map opToEvent) := by
    intro h
    rcases List.mem_map.mp h with ⟨op, _, heq⟩
    exact opToEvent_ne_done op heq
  have hB : SyncEvent.snapshotDone ∉
      ((runParser cfg acc kc mk pst0 cmds).emitted.map SyncEvent.enqueue) := by
    intro h
    rcases List.mem_map.mp h with ⟨c, _, heq⟩
    exact SyncEvent.noConfusion heq
  constructor
  · unfold syncTrace
    rw [List.count_append, List.count_cons_self,
      List.count_eq_zero.mpr hA, List.count_eq_zero.mpr hB]
  · intro pre post heq c hc
    have heq' : ((runRestore cfg acc kts rst0 entries).2.map opToEvent) ++
        SyncEvent.snapshotDone ::
          ((runParser cfg acc kc mk pst0 cmds).emitted.map SyncEvent.enqueue) =
        pre ++ SyncEvent.snapshotDone :: post := heq
    obtain ⟨h1, _⟩ := append_cons_unique heq' hA hB
    rw [← h1] at hc
    rcases List.mem_map.mp hc with ⟨op, _, heq2⟩
    have hop := opToEvent_not_enq op
    rw [heq2] at hop
    exact Bool.noConfusion hop

/-- C3 witness: the concrete lifetime with one restored record and one
streamed command — snapshot-done occurs once, and the trace prefix
before it (the restore of the record) contains no enqueue. -/
theorem snapshot_done_once_before_first_enqueue_witness :
    (syncTrace cfgNoFilter accAll kcNone mkId kts0 [⟨0, "a", "1"⟩]
        [("set", ["k", "v"])]).count SyncEvent.snapshotDone = 1 ∧
    SyncEvent.enqueue ⟨"set", ["k", "v"]⟩ ∉
      [SyncEvent.restoreEntry ⟨0, "a", "1"⟩] :=
  ⟨(snapshot_done_once_before_first_enqueue cfgNoFilter accAll kcNone mkId
      kts0 [⟨0, "a", "1"⟩] [("set", ["k", "v"])]).1,
   (snapshot_done_once_before_first_enqueue cfgNoFilter accAll kcNone mkId
      kts0 [⟨0, "a", "1"⟩] [("set", ["k", "v"])]).2
     [SyncEvent.restoreEntry ⟨0, "a", "1"⟩]
     [SyncEvent.enqueue ⟨"set", ["k", "v"]⟩] (by decide)
     ⟨"set", ["k", "v"]⟩⟩

/-! ## C9 — classic handshake and snapshot size 0 -/

/-- C9 counterexample: in classic sync mode a snapshot-size
announcement of `0` does not complete the handshake — the loop keeps
waiting (it never returns while only zeros arrive), refuting the claim
that announcing size 0 completes the handshake and fires snapshotDone
immediately. -/
theorem classic_zero_size_counterexample :
    sendSyncCmdResult [0] = none ∧ sendSyncCmdResult [0, 0, 0] = none := by
  decide

/-- The classic-sync size loop skips any run of zero announcements and
returns the first non-zero size. -/
theorem sendSyncCmd_skips_zeros :
    ∀ (pre : List Int) (n : Int) (rest : List Int),
      (∀ m ∈ pre, m = 0) → n ≠ 0 →
      sendSyncCmdResult (pre ++ n :: rest) = some n := by
  intro pre
  induction pre with
  | nil =>
    intro n rest _ hn
    simp [sendSyncCmdResult, hn]
  | cons m pre ih =>
    intro n rest hpre hn
    have hm : m = 0 := hpre m (List.mem_cons_self _ _)
    simp only [List.cons_append, sendSyncCmdResult, hm, if_pos]
    exact ih n rest (fun x hx => hpre x (List.mem_cons_of_mem _ hx)) hn

/-- C9 (amended): the classic handshake treats size-0 announcements as
keepalives and completes only with the first non-zero announced size;
after a snapshot phase with no records (`nentry = 0`), a streamed
`SET k v` is emitted by the parser and its send advances the `forward`
counter to 1. -/
theorem classic_handshake_first_nonzero (pre : List Int) (n : Int)
    (rest : List Int) (hpre : ∀ m ∈ pre, m = 0) (hn : n ≠ 0) :
    sendSyncCmdResult (pre ++ n :: rest) = some n ∧
    (runRestore cfgNoFilter accAll kts0 rst0 []).1.nentry = 0 ∧
    (runParser cfgNoFilter accAll kcNone mkId pst0
      [("set", ["k", "v"])]).emitted = [⟨"set", ["k", "v"]⟩] ∧
    ((senderStep cfgNoFilter ⟨0, 0, 0, 0⟩ ⟨"set", ["k", "v"]⟩ true false
        false).stOr ⟨0, 0, 0, 0⟩).forward = 1 :=
  ⟨sendSyncCmd_skips_zeros pre n rest hpre hn, by decide, by decide, by decide⟩

/-- C9 witness: the amended theorem at the announcement sequence
`[0, 76]`. -/
theorem classic_handshake_first_nonzero_witness :
    sendSyncCmdResult ([0] ++ (76 : Int) :: []) = some 76 ∧
    (runRestore cfgNoFilter accAll kts0 rst0 []).1.nentry = 0 ∧
    (runParser cfgNoFilter accAll kcNone mkId pst0
      [("set", ["k", "v"])]).emitted = [⟨"set", ["k", "v"]⟩] ∧
    ((senderStep cfgNoFilter ⟨0, 0, 0, 0⟩ ⟨"set", ["k", "v"]⟩ true false
        false).stOr ⟨0, 0, 0, 0⟩).forward = 1 :=
  classic_handshake_first_nonzero [0] 76 [] (by decide) (by decide)

end RedisShake
